import Mathlib

/-!
# Verification of `market_data_service.py`

Shallow embedding of the data-aggregation service: the pure aggregator
(`aggregate_data`), the cached aggregated-data endpoint
(`get_cached_aggregated_investment_data`), the klines endpoint (`get_klines`)
and the kline fetcher's parameter construction (`fetch_bybit_klines` params).

Python strings are modelled as `List Char` (`Str`), so that the string
operations the source uses (`str.endswith`, `str.replace`) are structurally
recursive and computable in the kernel.  Python dicts are modelled as
association lists with first-match lookup and replace-or-append insertion,
which matches dict semantics on the unique-key dictionaries the code builds.
-/

/-- Python strings, as lists of characters. -/
abbrev Str := List Char

/-- Source line 180: `symbol.endswith('USDT')`, the suffix test. -/
def pyEndsWithUSDT (symbol : Str) : Bool :=
  List.isSuffixOf "USDT".toList symbol

/-- Source line 184: `symbol.replace('USDT', '')`.  Python `str.replace`
deletes every non-overlapping occurrence of `'USDT'`, scanning left to
right. -/
def pyReplaceUSDT : Str → Str
  | 'U' :: 'S' :: 'D' :: 'T' :: rest => pyReplaceUSDT rest
  | c :: rest => c :: pyReplaceUSDT rest
  | [] => []

/-- Value stored for one coin in the map built by `fetch_coingecko_data`
(source lines 99-104).  Every key is always present; the upstream values may
be JSON null, hence the `Option` fields. -/
structure CoinGeckoItem where
  marketCapUSD : Option Int
  marketCapRank : Option Int
  /-- `coin.get('name')`: `none` models a stored Python `None`. -/
  coinName : Option Str
  coinLogoURL : Option Str
deriving DecidableEq, Repr

/-- The fields of a Bybit ticker item that `aggregate_data` reads via
`.get` (source lines 190-192); `none` models an absent key (`.get` with no
default returns `None`). -/
structure TickerItem where
  lastPrice : Option Str
  price24hPcnt : Option Str
  volume24h : Option Str
deriving DecidableEq, Repr

/-- One record of the aggregated output (source lines 188-197). -/
structure InstrumentRecord where
  coinName : Option Str
  currentPrice : Option Str
  priceChange24hPcnt : Option Str
  volume24h : Option Str
  coinLogoURL : Option Str
  marketCapUSD : Option Int
  marketCapRank : Option Int
deriving DecidableEq, Repr

/-- Python dict assignment `d[k] = v`: replace the binding if the key is
present, otherwise append, preserving insertion order. -/
def dictInsert {α : Type} (m : List (Str × α)) (k : Str) (v : α) :
    List (Str × α) :=
  if m.any (fun p => p.1 = k) then
    m.map (fun p => if p.1 = k then (k, v) else p)
  else
    m ++ [(k, v)]

/-- Source lines 188-197: the dict literal assigned to
`final_data[symbol]`, as a function of the looked-up CoinGecko item
`cg_item`, the derived `base_coin` and the Bybit item `bb_item`. -/
def buildRecord (cg_item : Option CoinGeckoItem) (base_coin : Str)
    (bb_item : TickerItem) : InstrumentRecord :=
  { coinName :=
      match cg_item with
      | some cg =>
        -- Source: `cg_item.get('coinName', base_coin)`.  The builder of
        -- `coingecko_data` always stores the `coinName` key, so the
        -- `.get` default never fires; Python returns the stored value
        -- even when that value is `None`.
        cg.coinName
      | none => some base_coin
    currentPrice := bb_item.lastPrice
    priceChange24hPcnt := bb_item.price24hPcnt
    volume24h := bb_item.volume24h
    coinLogoURL :=
      match cg_item with
      | some cg => cg.coinLogoURL
      | none => none
    marketCapUSD :=
      match cg_item with
      | some cg => cg.marketCapUSD
      | none => none
    marketCapRank :=
      match cg_item with
      | some cg => cg.marketCapRank
      | none => none }

/-- The body of the `for` loop of `aggregate_data` (source lines 178-197),
acting on the accumulator `final_data`. -/
def aggregateStep (coingecko_data : List (Str × CoinGeckoItem))
    (final_data : List (Str × InstrumentRecord)) (entry : Str × TickerItem) :
    List (Str × InstrumentRecord) :=
  if ¬ pyEndsWithUSDT entry.1 then
    final_data
  else
    dictInsert final_data entry.1
      (buildRecord (List.lookup (pyReplaceUSDT entry.1) coingecko_data)
        (pyReplaceUSDT entry.1) entry.2)

/-- Source lines 174-199, `aggregate_data`: merge and filter the two
upstream maps. -/
def aggregate_data (coingecko_data : List (Str × CoinGeckoItem))
    (bybit_data : List (Str × TickerItem)) : List (Str × InstrumentRecord) :=
  bybit_data.foldl (aggregateStep coingecko_data) []

/-- Source line 36: the freshness window, in seconds. -/
def CACHE_DURATION_SECONDS : Nat := 300

/-- Source lines 37-40: the module-level cache, one snapshot plus its
timestamp.  Time is modelled in whole seconds as `Nat` (Python's
`time.time()` is non-negative; the truncated subtraction
`current_time - last_updated` takes the same branch of the freshness test
as Python's signed subtraction in every reachable state). -/
structure DataCache where
  last_updated : Nat
  data : List (Str × InstrumentRecord)
deriving DecidableEq, Repr

/-- Source lines 37-40: the initial cache state
`{"last_updated": 0, "data": {}}`. -/
def data_cache_init : DataCache := { last_updated := 0, data := [] }

/-- Outcome classification of the aggregated-data endpoint: a 200 body, or
the 503 raised at source lines 247-250. -/
inductive AggResponse where
  | ok (body : List (Str × InstrumentRecord))
  | serviceUnavailable503
deriving DecidableEq, Repr

/-- Result of one run of the aggregated-data handler: the cache state after
the run, the response, and whether the upstream fetchers were invoked. -/
structure AggOutcome where
  cache : DataCache
  response : AggResponse
  fetched : Bool
deriving DecidableEq, Repr

/-- Source lines 212-250, `get_cached_aggregated_investment_data`.
`current_time` is the single wall-clock sample `time.time()` taken at line
214; the code never samples the clock again, so the cache write at line 237
also stores this value.  The two upstream fetch results are parameters:
the fetchers absorb every failure into an empty map and never raise. -/
def get_cached_aggregated_investment_data (cache : DataCache)
    (current_time : Nat) (coingecko_data : List (Str × CoinGeckoItem))
    (bybit_data : List (Str × TickerItem)) : AggOutcome :=
  if current_time - cache.last_updated < CACHE_DURATION_SECONDS ∧
      cache.data ≠ [] then
    { cache := cache, response := .ok cache.data, fetched := false }
  else
    let final_data := aggregate_data coingecko_data bybit_data
    if final_data ≠ [] then
      { cache := { last_updated := current_time, data := final_data },
        response := .ok final_data, fetched := true }
    else if cache.data ≠ [] then
      { cache := cache, response := .ok cache.data, fetched := true }
    else
      { cache := cache, response := .serviceUnavailable503, fetched := true }

/-- Outcome classification of the klines endpoint: a 200 body, the 400 of
source lines 284-287, or the 404 of source lines 294-297. -/
inductive KlinesResponse where
  | ok (klines : List (List Str))
  | badRequest400
  | notFound404
deriving DecidableEq, Repr

/-- Result of one run of the klines handler: the response and whether the
upstream fetcher was invoked. -/
structure KlinesOutcome where
  response : KlinesResponse
  fetched : Bool
deriving DecidableEq, Repr

/-- Source lines 264-299, `get_klines`.  `symbol` and `interval` are the
query parameters (Python `not s` on a string is the emptiness test);
`fetchResult` is what `fetch_bybit_klines` returns, already `[]` on any
upstream failure. -/
def get_klines (symbol interval : Str) (fetchResult : List (List Str)) :
    KlinesOutcome :=
  if symbol = [] ∨ interval = [] then
    { response := .badRequest400, fetched := false }
  else if fetchResult = [] then
    { response := .notFound404, fetched := true }
  else
    { response := .ok fetchResult, fetched := true }

/-- Value of one entry of the query-parameter dict built by
`fetch_bybit_klines`: a string or an integer. -/
inductive ParamValue where
  | str (s : Str)
  | int (n : Int)
deriving DecidableEq, Repr

/-- Python truthiness of an optional integer, as in `if start_time:`
(source line 148): both `None` and `0` are falsy. -/
def pyTruthyOptInt : Option Int → Bool
  | none => false
  | some n => n ≠ 0

/-- Source lines 140-151: the query-parameter dict that
`fetch_bybit_klines` sends upstream.  The optional time bounds are added
only when Python finds them truthy. -/
def fetch_bybit_klines_params (symbol interval : Str)
    (start_time end_time : Option Int) (limit : Int) :
    List (Str × ParamValue) :=
  let params : List (Str × ParamValue) :=
    [("category".toList, ParamValue.str "spot".toList),
     ("symbol".toList, ParamValue.str symbol),
     ("interval".toList, ParamValue.str interval),
     ("limit".toList, ParamValue.int limit)]
  let params :=
    if pyTruthyOptInt start_time then
      params ++ [("start".toList, ParamValue.int (start_time.getD 0))]
    else params
  if pyTruthyOptInt end_time then
    params ++ [("end".toList, ParamValue.int (end_time.getD 0))]
  else params

/-- Reading of claim C5 for the base-symbol derivation: the symbol with its
trailing `'USDT'` removed and nothing else changed.  Stated from the
claim's words, to be compared with the source's `pyReplaceUSDT`. -/
def stripTrailingUSDT (symbol : Str) : Str :=
  symbol.take (symbol.length - 4)

/-- Reading of claim C7 for the stored timestamp: the moment the cache is
written.  The handler samples the clock once, at request entry; the write
happens only after both upstream fetches complete, so the wall clock at the
write is the entry sample plus the seconds the fetches took.  Stated from
the claim's words, to be compared with what the source stores. -/
def specWriteTime (request_time fetch_elapsed : Nat) : Nat :=
  request_time + fetch_elapsed

/-- The cache-state invariant of the spec (section 3): either the mapping
is non-empty and the timestamp is set, or the mapping is empty and the
timestamp still has its unset initial value `0`. -/
def cacheInvariant (c : DataCache) : Prop :=
  (c.data ≠ [] ∧ c.last_updated ≠ 0) ∨ (c.data = [] ∧ c.last_updated = 0)

/-- Concrete ticker entry used by the witnesses (spec section 8
scenario). -/
def sampleTicker : TickerItem :=
  { lastPrice := some "50000".toList, price24hPcnt := some "0.02".toList,
    volume24h := some "1000".toList }

/-- Concrete one-pair Bybit map used by the witnesses. -/
def sampleBybit : List (Str × TickerItem) := [("BTCUSDT".toList, sampleTicker)]

/-- Concrete cached record used by the witnesses. -/
def sampleRecord : InstrumentRecord := buildRecord none "BTC".toList sampleTicker

/-- Concrete non-empty cache used by the witnesses. -/
def sampleCache : DataCache :=
  { last_updated := 100, data := [("BTCUSDT".toList, sampleRecord)] }

theorem lookup_cons_eq_if {α : Type} (a b : Str) (v : α) (l : List (Str × α)) :
    List.lookup a ((b, v) :: l) = if a = b then some v else List.lookup a l := by
  rw [List.lookup_cons]
  by_cases h : a = b
  · simp [h]
  · simp only [if_neg h]
    have : (a == b) = false := beq_false_of_ne h
    rw [this]

theorem lookup_map_replace {α : Type} (k : Str) (v : α) (m : List (Str × α)) :
    List.lookup k (m.map (fun p => if p.1 = k then (k, v) else p)) =
      if m.any (fun p => p.1 = k) then some v else none := by
  induction m with
  | nil => rfl
  | cons p m ih =>
    by_cases hpk : p.1 = k
    · have hp : (if p.1 = k then (k, v) else p) = (k, v) := if_pos hpk
      simp only [List.map_cons, hp, List.lookup_cons_self, List.any_cons]
      rw [if_pos (by simp [hpk])]
    · have hp : (if p.1 = k then (k, v) else p) = p := if_neg hpk
      have hkp : ¬ k = p.1 := fun e => hpk e.symm
      simp only [List.map_cons, hp, List.any_cons]
      rw [show (p :: m.map (fun p => if p.1 = k then (k, v) else p)) =
            ((p.1, p.2) :: m.map (fun p => if p.1 = k then (k, v) else p)) by rfl,
          lookup_cons_eq_if, if_neg hkp, ih]
      simp only [decide_eq_false hpk, Bool.false_or]

theorem lookup_map_replace_ne {α : Type} (k : Str) (v : α) (k' : Str)
    (h : k' ≠ k) (m : List (Str × α)) :
    List.lookup k' (m.map (fun p => if p.1 = k then (k, v) else p)) =
      List.lookup k' m := by
  induction m with
  | nil => rfl
  | cons p m ih =>
    by_cases hpk : p.1 = k
    · have hp : (if p.1 = k then (k, v) else p) = (k, v) := if_pos hpk
      simp only [List.map_cons, hp]
      rw [lookup_cons_eq_if, if_neg h,
          show (p :: m : List (Str × α)) = ((p.1, p.2) :: m) by rfl,
          lookup_cons_eq_if, if_neg (hpk ▸ h), ih]
    · have hp : (if p.1 = k then (k, v) else p) = p := if_neg hpk
      simp only [List.map_cons, hp]
      rw [show (p :: m.map (fun p => if p.1 = k then (k, v) else p)) =
            ((p.1, p.2) :: m.map (fun p => if p.1 = k then (k, v) else p)) by rfl,
          lookup_cons_eq_if,
          show (p :: m : List (Str × α)) = ((p.1, p.2) :: m) by rfl,
          lookup_cons_eq_if, ih]

theorem not_any_eq_lookup_none {α : Type} (k : Str) (m : List (Str × α))
    (h : ¬ m.any (fun p => p.1 = k) = true) : List.lookup k m = none := by
  rw [List.lookup_eq_none_iff]
  intro p hp
  simp only [List.any_eq_true, decide_eq_true_eq] at h
  push_neg at h
  exact bne_iff_ne.mpr fun e => h p hp e.symm

theorem dictInsert_lookup_self {α : Type} (m : List (Str × α)) (k : Str) (v : α) :
    List.lookup k (dictInsert m k v) = some v := by
  unfold dictInsert
  by_cases h : m.any (fun p => p.1 = k)
  · rw [if_pos h, lookup_map_replace, if_pos h]
  · rw [if_neg h, List.lookup_append, not_any_eq_lookup_none k m h]
    simp

theorem dictInsert_lookup_ne {α : Type} (m : List (Str × α)) (k : Str) (v : α)
    (k' : Str) (h : k' ≠ k) :
    List.lookup k' (dictInsert m k v) = List.lookup k' m := by
  unfold dictInsert
  by_cases hc : m.any (fun p => p.1 = k)
  · rw [if_pos hc, lookup_map_replace_ne k v k' h]
  · rw [if_neg hc, List.lookup_append, lookup_cons_eq_if, if_neg h]
    cases List.lookup k' m <;> rfl

theorem dictInsert_mem_keys {α : Type} (m : List (Str × α)) (k : Str) (v : α)
    (k' : Str) :
    k' ∈ (dictInsert m k v).map Prod.fst ↔ k' ∈ m.map Prod.fst ∨ k' = k := by
  unfold dictInsert
  by_cases h : m.any (fun p => p.1 = k)
  · rw [if_pos h]
    simp only [List.any_eq_true, decide_eq_true_eq] at h
    obtain ⟨q, hq, hqk⟩ := h
    simp only [List.map_map, List.mem_map, Function.comp]
    constructor
    · rintro ⟨p, hp, hfp⟩
      by_cases hpk : p.1 = k
      · rw [if_pos hpk] at hfp
        right; exact hfp.symm
      · rw [if_neg hpk] at hfp
        left; exact ⟨p, hp, hfp⟩
    · intro hor
      rcases hor with hmem | rfl
      · obtain ⟨p, hp, hpk'⟩ := hmem
        by_cases hpk : p.1 = k
        · exact ⟨q, hq, by rw [if_pos hqk]; exact (hpk ▸ hpk')⟩
        · exact ⟨p, hp, by rw [if_neg hpk]; exact hpk'⟩
      · exact ⟨q, hq, by rw [if_pos hqk]⟩
  · rw [if_neg h]
    rw [List.map_append, List.mem_append,
        show ([(k, v)] : List (Str × α)).map Prod.fst = [k] from rfl,
        List.mem_singleton]

theorem aggregate_foldl_mem_keys (cg : List (Str × CoinGeckoItem)) (k : Str) :
    ∀ (bb : List (Str × TickerItem)) (acc : List (Str × InstrumentRecord)),
      (k ∈ (bb.foldl (aggregateStep cg) acc).map Prod.fst ↔
        k ∈ acc.map Prod.fst ∨ (k ∈ bb.map Prod.fst ∧ pyEndsWithUSDT k = true)) := by
  intro bb
  induction bb with
  | nil =>
    intro acc
    simp only [List.foldl_nil, List.map_nil, List.not_mem_nil, false_and,
      or_false]
  | cons e rest ih =>
    intro acc
    obtain ⟨s, t⟩ := e
    rw [List.foldl_cons, ih]
    show _ ↔ _ ∨ (k ∈ ((s, t) :: rest).map Prod.fst ∧ _)
    rw [List.map_cons, List.mem_cons]
    unfold aggregateStep
    by_cases hs : pyEndsWithUSDT (s, t).1
    · rw [if_neg (by simpa using hs)]
      rw [dictInsert_mem_keys]
      constructor
      · rintro ((hacc | rfl) | hrest)
        · exact Or.inl hacc
        · exact Or.inr ⟨Or.inl rfl, hs⟩
        · exact Or.inr ⟨Or.inr hrest.1, hrest.2⟩
      · rintro (hacc | ⟨(rfl | hrest), hend⟩)
        · exact Or.inl (Or.inl hacc)
        · exact Or.inl (Or.inr rfl)
        · exact Or.inr ⟨hrest, hend⟩
    · rw [if_pos (by simpa using hs)]
      have hs' : pyEndsWithUSDT s = false := by simpa using hs
      constructor
      · rintro (hacc | hrest)
        · exact Or.inl hacc
        · exact Or.inr ⟨Or.inr hrest.1, hrest.2⟩
      · rintro (hacc | ⟨(rfl | hrest), hend⟩)
        · exact Or.inl hacc
        · rw [hs'] at hend; cases hend
        · exact Or.inr ⟨hrest, hend⟩

theorem aggregate_data_mem_keys (cg : List (Str × CoinGeckoItem))
    (bb : List (Str × TickerItem)) (k : Str) :
    k ∈ (aggregate_data cg bb).map Prod.fst ↔
      k ∈ bb.map Prod.fst ∧ pyEndsWithUSDT k = true := by
  unfold aggregate_data
  rw [aggregate_foldl_mem_keys]
  simp only [List.map_nil, List.not_mem_nil, false_or]

theorem aggregate_foldl_lookup (cg : List (Str × CoinGeckoItem)) (k : Str) :
    ∀ (bb : List (Str × TickerItem)) (acc : List (Str × InstrumentRecord)),
      (bb.map Prod.fst).Nodup →
      List.lookup k (bb.foldl (aggregateStep cg) acc) =
        match List.lookup k bb with
        | some t =>
            if pyEndsWithUSDT k then
              some (buildRecord (List.lookup (pyReplaceUSDT k) cg)
                (pyReplaceUSDT k) t)
            else List.lookup k acc
        | none => List.lookup k acc := by
  intro bb
  induction bb with
  | nil => intro acc _; rfl
  | cons e rest ih =>
    intro acc hnd
    obtain ⟨s, t⟩ := e
    rw [List.map_cons, List.nodup_cons] at hnd
    obtain ⟨hs_not, hnd'⟩ := hnd
    rw [List.foldl_cons, ih _ hnd']
    by_cases hks : k = s
    · subst hks
      have hrest : List.lookup k rest = none := by
        rw [List.lookup_eq_none_iff]
        intro p hp
        exact bne_iff_ne.mpr fun e => hs_not (e ▸ List.mem_map.mpr ⟨p, hp, rfl⟩)
      rw [hrest, lookup_cons_eq_if, if_pos rfl]
      dsimp only
      unfold aggregateStep
      dsimp only
      by_cases hend : pyEndsWithUSDT k = true
      · rw [if_neg (by simp [hend]), dictInsert_lookup_self, if_pos hend]
      · rw [if_pos (by simp [hend]), if_neg hend]
    · have hcons : List.lookup k ((s, t) :: rest) = List.lookup k rest :=
        (lookup_cons_eq_if k s t rest).trans (if_neg hks)
      rw [hcons]
      have hstep : List.lookup k (aggregateStep cg acc (s, t)) =
          List.lookup k acc := by
        unfold aggregateStep
        dsimp only
        by_cases hend : pyEndsWithUSDT s = true
        · rw [if_neg (by simp [hend]), dictInsert_lookup_ne _ _ _ _ hks]
        · rw [if_pos (by simp [hend])]
      rw [hstep]

theorem aggregate_data_lookup (cg : List (Str × CoinGeckoItem))
    (bb : List (Str × TickerItem)) (s : Str) (t : TickerItem)
    (hnd : (bb.map Prod.fst).Nodup) (hmem : List.lookup s bb = some t)
    (hend : pyEndsWithUSDT s = true) :
    List.lookup s (aggregate_data cg bb) =
      some (buildRecord (List.lookup (pyReplaceUSDT s) cg) (pyReplaceUSDT s) t) := by
  unfold aggregate_data
  rw [aggregate_foldl_lookup cg s bb [] hnd, hmem]
  dsimp only
  rw [if_pos hend]

/-- C4: the aggregator's output key set is exactly the set of tickerMap
keys ending in the quote suffix `'USDT'`; the output never contains a key
absent from the tickerMap, and it is empty whenever the tickerMap is empty,
independent of the marketCapMap. -/
theorem claim_C4_aggregate_key_set (cg : List (Str × CoinGeckoItem))
    (bb : List (Str × TickerItem)) (k : Str) :
    (k ∈ (aggregate_data cg bb).map Prod.fst ↔
      k ∈ bb.map Prod.fst ∧ pyEndsWithUSDT k = true) ∧
    aggregate_data cg [] = [] :=
  ⟨aggregate_data_mem_keys cg bb k, rfl⟩

/-- C5 (counterexample): the claim that the base symbol is the symbol with
its trailing `'USDT'` removed and nothing else changed fails on the
retained symbol `"USDTUSDT"`: the code's `replace('USDT', '')` deletes both
occurrences, so the aggregator's fallback display name is the empty string,
not `"USDT"`. -/
theorem claim_C5_counterexample :
    pyEndsWithUSDT "USDTUSDT".toList = true ∧
    Option.map InstrumentRecord.coinName
        (List.lookup "USDTUSDT".toList
          (aggregate_data [] [("USDTUSDT".toList, sampleTicker)]))
      = some (some "".toList) ∧
    stripTrailingUSDT "USDTUSDT".toList = "USDT".toList ∧
    ("".toList : Str) ≠ "USDT".toList := by
  refine ⟨by decide, by decide, by decide, by decide⟩

/-- C5 (amended): for every retained trading-pair symbol the aggregator
derives the base symbol by deleting every non-overlapping occurrence of
`'USDT'` from the symbol, scanning left to right (Python `str.replace`
semantics); the derived base is used both for the marketCapMap lookup and
as the fallback display name. -/
theorem claim_C5_base_symbol (cg : List (Str × CoinGeckoItem))
    (bb : List (Str × TickerItem)) (s : Str) (t : TickerItem)
    (hnd : (bb.map Prod.fst).Nodup) (hmem : List.lookup s bb = some t)
    (hend : pyEndsWithUSDT s = true) :
    List.lookup s (aggregate_data cg bb) =
      some (buildRecord (List.lookup (pyReplaceUSDT s) cg)
        (pyReplaceUSDT s) t) :=
  aggregate_data_lookup cg bb s t hnd hmem hend

theorem claim_C5_base_symbol_witness :
    List.lookup "BTCUSDT".toList (aggregate_data [] sampleBybit) =
      some (buildRecord none "BTC".toList sampleTicker) := by
  rw [claim_C5_base_symbol [] sampleBybit "BTCUSDT".toList sampleTicker
    (by decide) (by decide) (by decide)]
  decide

/-- C6: for a retained symbol whose derived base misses the marketCapMap,
the output record's display name is the derived base symbol and the
enrichment fields are null; and for every retained symbol the price,
24h-change and volume fields come from the tickerMap entry. -/
theorem claim_C6_enrichment (cg : List (Str × CoinGeckoItem))
    (bb : List (Str × TickerItem)) (s : Str) (t : TickerItem)
    (hnd : (bb.map Prod.fst).Nodup) (hmem : List.lookup s bb = some t)
    (hend : pyEndsWithUSDT s = true) :
    (List.lookup (pyReplaceUSDT s) cg = none →
      List.lookup s (aggregate_data cg bb) =
        some { coinName := some (pyReplaceUSDT s),
               currentPrice := t.lastPrice,
               priceChange24hPcnt := t.price24hPcnt,
               volume24h := t.volume24h,
               coinLogoURL := none,
               marketCapUSD := none,
               marketCapRank := none }) ∧
    (∃ r, List.lookup s (aggregate_data cg bb) = some r ∧
      r.currentPrice = t.lastPrice ∧
      r.priceChange24hPcnt = t.price24hPcnt ∧
      r.volume24h = t.volume24h) := by
  have h := aggregate_data_lookup cg bb s t hnd hmem hend
  constructor
  · intro hmiss
    rw [h, hmiss]
    rfl
  · exact ⟨_, h, rfl, rfl, rfl⟩

theorem claim_C6_enrichment_witness :
    (List.lookup (pyReplaceUSDT "BTCUSDT".toList)
        ([] : List (Str × CoinGeckoItem)) = none →
      List.lookup "BTCUSDT".toList (aggregate_data [] sampleBybit) =
        some { coinName := some (pyReplaceUSDT "BTCUSDT".toList),
               currentPrice := sampleTicker.lastPrice,
               priceChange24hPcnt := sampleTicker.price24hPcnt,
               volume24h := sampleTicker.volume24h,
               coinLogoURL := none,
               marketCapUSD := none,
               marketCapRank := none }) ∧
    (∃ r, List.lookup "BTCUSDT".toList (aggregate_data [] sampleBybit) = some r ∧
      r.currentPrice = sampleTicker.lastPrice ∧
      r.priceChange24hPcnt = sampleTicker.price24hPcnt ∧
      r.volume24h = sampleTicker.volume24h) :=
  claim_C6_enrichment [] sampleBybit "BTCUSDT".toList sampleTicker
    (by decide) (by decide) (by decide)

/-- C1: when the refresh path runs, aggregation is empty and the cache
holds a prior non-empty snapshot (of any age), the handler returns exactly
that prior snapshot, leaves the cached data and its timestamp untouched,
and does not raise: the response is a 200 with the old body, never the
503. -/
theorem claim_C1_stale_fallback (cache : DataCache) (current_time : Nat)
    (cg : List (Str × CoinGeckoItem)) (bb : List (Str × TickerItem))
    (hrefresh : ¬ (current_time - cache.last_updated < CACHE_DURATION_SECONDS ∧
      cache.data ≠ []))
    (hempty : aggregate_data cg bb = [])
    (hprior : cache.data ≠ []) :
    get_cached_aggregated_investment_data cache current_time cg bb =
      { cache := cache, response := .ok cache.data, fetched := true } := by
  unfold get_cached_aggregated_investment_data
  rw [if_neg hrefresh]
  simp only [hempty]
  rw [if_neg (by simp), if_pos hprior]

theorem claim_C1_stale_fallback_witness :
    get_cached_aggregated_investment_data sampleCache 400 [] [] =
      { cache := sampleCache, response := .ok sampleCache.data,
        fetched := true } :=
  claim_C1_stale_fallback sampleCache 400 [] [] (by decide) (by decide)
    (by decide)

/-- C2: when the cached mapping is non-empty and its age is strictly below
the freshness window of 300 seconds, the handler returns the cached mapping
immediately, performs no upstream fetch, and leaves the cache unchanged. -/
theorem claim_C2_fresh_hit (cache : DataCache) (current_time : Nat)
    (cg : List (Str × CoinGeckoItem)) (bb : List (Str × TickerItem))
    (hfresh : current_time - cache.last_updated < CACHE_DURATION_SECONDS)
    (hne : cache.data ≠ []) :
    get_cached_aggregated_investment_data cache current_time cg bb =
      { cache := cache, response := .ok cache.data, fetched := false } := by
  unfold get_cached_aggregated_investment_data
  rw [if_pos ⟨hfresh, hne⟩]

theorem claim_C2_fresh_hit_witness :
    get_cached_aggregated_investment_data sampleCache 200 [] sampleBybit =
      { cache := sampleCache, response := .ok sampleCache.data,
        fetched := false } :=
  claim_C2_fresh_hit sampleCache 200 [] sampleBybit (by decide) (by decide)

/-- C3: when the refresh path runs, aggregation is empty and the cache is
empty, the handler signals a 503 service-unavailable failure and the cache
stays empty, with data and timestamp unchanged. -/
theorem claim_C3_no_data_503 (cache : DataCache) (current_time : Nat)
    (cg : List (Str × CoinGeckoItem)) (bb : List (Str × TickerItem))
    (hnodata : cache.data = [])
    (hempty : aggregate_data cg bb = []) :
    get_cached_aggregated_investment_data cache current_time cg bb =
      { cache := cache, response := .serviceUnavailable503,
        fetched := true } := by
  unfold get_cached_aggregated_investment_data
  rw [if_neg (by simp [hnodata])]
  simp only [hempty]
  rw [if_neg (by simp), if_neg (by simp [hnodata])]

theorem claim_C3_no_data_503_witness :
    get_cached_aggregated_investment_data data_cache_init 400 [] [] =
      { cache := data_cache_init, response := .serviceUnavailable503,
        fetched := true } :=
  claim_C3_no_data_503 data_cache_init 400 [] [] (by decide) (by decide)

/-- C7 (counterexample): the claim that a successful refresh resets the
stored timestamp to the moment the cache is written fails: the code stores
the clock sample taken at request entry, before the upstream fetches.  In
the run below the request enters at second 1000, the two fetches take 15
seconds, so the cache write happens at second 1015, yet the stored
timestamp is 1000. -/
theorem claim_C7_counterexample :
    (get_cached_aggregated_investment_data data_cache_init 1000 []
        sampleBybit).cache.last_updated = 1000 ∧
    specWriteTime 1000 15 = 1015 ∧
    (get_cached_aggregated_investment_data data_cache_init 1000 []
        sampleBybit).cache.last_updated ≠ specWriteTime 1000 15 :=
  ⟨by decide, rfl, by decide⟩

/-- C7 (amended): when the refresh path runs and aggregation is non-empty,
the handler replaces the stored snapshot with the new mapping, resets the
stored timestamp to the clock sample taken at request entry (before the
upstream fetches — not the later moment of the write), and returns the new
mapping. -/
theorem claim_C7_refresh_ok (cache : DataCache) (current_time : Nat)
    (cg : List (Str × CoinGeckoItem)) (bb : List (Str × TickerItem))
    (hrefresh : ¬ (current_time - cache.last_updated < CACHE_DURATION_SECONDS ∧
      cache.data ≠ []))
    (hok : aggregate_data cg bb ≠ []) :
    get_cached_aggregated_investment_data cache current_time cg bb =
      { cache := { last_updated := current_time, data := aggregate_data cg bb },
        response := .ok (aggregate_data cg bb), fetched := true } := by
  unfold get_cached_aggregated_investment_data
  rw [if_neg hrefresh, if_pos hok]

theorem claim_C7_refresh_ok_witness :
    get_cached_aggregated_investment_data data_cache_init 400 [] sampleBybit =
      { cache := { last_updated := 400, data := aggregate_data [] sampleBybit },
        response := .ok (aggregate_data [] sampleBybit), fetched := true } :=
  claim_C7_refresh_ok data_cache_init 400 [] sampleBybit (by decide) (by decide)

/-- C8: the cache-state invariant — either the mapping is non-empty and the
timestamp is set, or the mapping is empty and the timestamp has its unset
initial value — holds initially and is preserved by every request taken at
a positive clock value (Python's `time.time()` is always positive); and the
snapshot is replaced only by a successful refresh: every run either leaves
the cache untouched or writes the non-empty aggregation result. -/
theorem claim_C8_cache_invariant :
    cacheInvariant data_cache_init ∧
    ∀ (cache : DataCache) (current_time : Nat)
      (cg : List (Str × CoinGeckoItem)) (bb : List (Str × TickerItem)),
      0 < current_time → cacheInvariant cache →
      cacheInvariant
        (get_cached_aggregated_investment_data cache current_time cg bb).cache ∧
      ((get_cached_aggregated_investment_data cache current_time cg bb).cache
          = cache ∨
        (aggregate_data cg bb ≠ [] ∧
          (get_cached_aggregated_investment_data cache current_time cg bb).cache
            = { last_updated := current_time, data := aggregate_data cg bb })) := by
  constructor
  · exact Or.inr ⟨rfl, rfl⟩
  · intro cache current_time cg bb ht hinv
    unfold get_cached_aggregated_investment_data
    by_cases h1 : current_time - cache.last_updated < CACHE_DURATION_SECONDS ∧
        cache.data ≠ []
    · rw [if_pos h1]
      exact ⟨hinv, Or.inl rfl⟩
    · rw [if_neg h1]
      by_cases h2 : aggregate_data cg bb ≠ []
      · rw [if_pos h2]
        exact ⟨Or.inl ⟨h2, Nat.pos_iff_ne_zero.mp ht⟩, Or.inr ⟨h2, rfl⟩⟩
      · rw [if_neg h2]
        by_cases h3 : cache.data ≠ []
        · rw [if_pos h3]
          exact ⟨hinv, Or.inl rfl⟩
        · rw [if_neg h3]
          exact ⟨hinv, Or.inl rfl⟩

theorem claim_C8_cache_invariant_witness :
    cacheInvariant
      (get_cached_aggregated_investment_data data_cache_init 400 []
        sampleBybit).cache :=
  (claim_C8_cache_invariant.2 data_cache_init 400 [] sampleBybit (by decide)
    (Or.inr ⟨rfl, rfl⟩)).1

/-- C9: a klines request whose symbol or interval is empty/missing is
rejected with a 400 before any upstream call; a request whose upstream
fetch comes back empty is reported as a 404; otherwise the fetched candle
list is returned unchanged. -/
theorem claim_C9_klines_validation (symbol interval : Str)
    (fetchResult : List (List Str)) :
    ((symbol = [] ∨ interval = []) →
      get_klines symbol interval fetchResult =
        { response := .badRequest400, fetched := false }) ∧
    (symbol ≠ [] → interval ≠ [] → fetchResult = [] →
      get_klines symbol interval fetchResult =
        { response := .notFound404, fetched := true }) ∧
    (symbol ≠ [] → interval ≠ [] → fetchResult ≠ [] →
      get_klines symbol interval fetchResult =
        { response := .ok fetchResult, fetched := true }) := by
  unfold get_klines
  refine ⟨fun h => by rw [if_pos h], fun h1 h2 h3 => ?_, fun h1 h2 h3 => ?_⟩
  · rw [if_neg (by tauto), if_pos h3]
  · rw [if_neg (by tauto), if_neg h3]

theorem claim_C9_klines_validation_witness :
    get_klines "BTCUSDT".toList [] [] =
      { response := .badRequest400, fetched := false } :=
  (claim_C9_klines_validation "BTCUSDT".toList [] []).1 (Or.inr rfl)

/-- C10: a kline fetch whose `start_time` (or `end_time`) is `0` sends
exactly the same upstream parameters as one where the bound is absent; in
particular the `'start'` key is omitted when `start_time` is `0`, even
though `0` is a valid milliseconds-since-epoch timestamp. -/
theorem claim_C10_zero_time_bound (symbol interval : Str) (limit : Int) :
    (∀ end_time : Option Int,
      fetch_bybit_klines_params symbol interval (some 0) end_time limit =
        fetch_bybit_klines_params symbol interval none end_time limit) ∧
    (∀ start_time : Option Int,
      fetch_bybit_klines_params symbol interval start_time (some 0) limit =
        fetch_bybit_klines_params symbol interval start_time none limit) ∧
    (∀ end_time : Option Int,
      "start".toList ∉
        (fetch_bybit_klines_params symbol interval (some 0) end_time
          limit).map Prod.fst) := by
  refine ⟨fun e => ?_, fun s => ?_, fun e => ?_⟩
  · simp [fetch_bybit_klines_params, pyTruthyOptInt]
  · simp [fetch_bybit_klines_params, pyTruthyOptInt]
  · have h0 : pyTruthyOptInt (some 0) = false := by decide
    unfold fetch_bybit_klines_params
    rw [h0]
    simp only [Bool.false_eq_true, if_false]
    by_cases he : pyTruthyOptInt e = true
    · rw [if_pos he]
      simp only [List.map_append, List.map_cons, List.map_nil,
        List.mem_append, List.mem_cons, List.not_mem_nil]
      decide
    · rw [if_neg he]
      simp only [List.map_cons, List.map_nil, List.mem_cons,
        List.not_mem_nil]
      decide

theorem claim_C10_zero_time_bound_witness :
    fetch_bybit_klines_params "BTCUSDT".toList "60".toList (some 0) none 1000 =
      fetch_bybit_klines_params "BTCUSDT".toList "60".toList none none 1000 :=
  (claim_C10_zero_time_bound "BTCUSDT".toList "60".toList 1000).1 none
